import Mathlib

/-!
Verification of the AST3 `Parsers/parsers.py` module (classes `VELPTA`,
`METBK`, `WAVSS`): a shallow embedding of the line classification and
field extraction engine and of the three loaders, with theorems settling
the frozen claims about them.

Lines are modelled as `List Char`.  The Python regular expressions used by
the source are fixed concrete patterns, so each one is embedded as a
dedicated matching function with the semantics the Python `re` engine gives
that concrete pattern (leftmost scan, greedy or lazy quantifiers with
backtracking where the pattern allows it); the places where a greedy
quantifier is in fact deterministic for the given pattern are noted inline.
-/

namespace AST3

/-- A raw text line, as Python str content. -/
abbrev Line := List Char

/-- Python `re` class `\d` on ASCII input: the digits 0-9. -/
def pyDigit (c : Char) : Bool := c.isDigit

/-- Python `re` class `\s` (and `str.isspace`) on ASCII input:
space, tab, newline, carriage return, vertical tab, form feed. -/
def pyWs (c : Char) : Bool :=
  c = ' ' || c = '\t' || c = '\n' || c = '\r' || c = '\x0b' || c = '\x0c'

/-! ### Python `float(str)` — the trailing-token check of `parse_metbk`

`parse_metbk` classifies a line by `float(line.split()[-1])`; both the
`IndexError` of an empty split and the `ValueError` of an unparseable token
land in the same bare `except`.  The grammar of CPython's `float`:
optional surrounding whitespace, an optional sign, then `inf`, `infinity`
or `nan` case-insensitively, or a decimal literal
`digits [. [digits]] [exp] | . digits [exp]` where a digit run may contain
single underscores between digits and `exp` is `e|E [sign] digits`. -/

/-- Consume a digit run continuation: digits, with single underscores allowed
between digits; returns the rest of the token. -/
def digTail : Line → Line
  | [] => []
  | c :: r =>
    if pyDigit c then digTail r
    else if c = '_' then
      match r with
      | d :: r2 => if pyDigit d then digTail r2 else c :: r
      | [] => c :: r
    else c :: r

/-- Consume a Python digit part (at least one digit, underscores between
digits); `none` when the input does not start with a digit. -/
def digRun : Line → Option Line
  | [] => none
  | c :: r => if pyDigit c then some (digTail r) else none

/-- Consume a case-insensitive ASCII literal (given in lowercase). -/
def litCI : Line → Line → Option Line
  | [], l => some l
  | _ :: _, [] => none
  | p :: ps, c :: l => if c.toLower = p then litCI ps l else none

/-- Consume the mantissa of a decimal literal:
`digits [. [digits]]` or `. digits`. -/
def mantissa (l : Line) : Option Line :=
  match digRun l with
  | some r =>
    match r with
    | '.' :: r2 =>
      match digRun r2 with
      | some r3 => some r3
      | none => some r2
    | _ => some r
  | none =>
    match l with
    | '.' :: r2 => digRun r2
    | _ => none

/-- Consume an optional exponent `e|E [sign] digits`; if an `e`/`E` is
present its digits are mandatory. -/
def expOpt : Line → Option Line
  | [] => some []
  | c :: r =>
    if c = 'e' || c = 'E' then
      match r with
      | s :: r2 => if s = '+' || s = '-' then digRun r2 else digRun (s :: r2)
      | [] => none
    else some (c :: r)

/-- Whether Python `float(token)` succeeds on the token. -/
def isPyFloat (t : Line) : Bool :=
  let t1 := ((t.dropWhile pyWs).reverse.dropWhile pyWs).reverse
  let t2 := match t1 with
    | c :: r => if c = '+' || c = '-' then r else c :: r
    | [] => []
  match litCI ['i', 'n', 'f', 'i', 'n', 'i', 't', 'y'] t2 with
  | some [] => true
  | _ =>
    match litCI ['i', 'n', 'f'] t2 with
    | some [] => true
    | _ =>
      match litCI ['n', 'a', 'n'] t2 with
      | some [] => true
      | _ =>
        match mantissa t2 with
        | some r =>
          match expOpt r with
          | some [] => true
          | _ => false
        | none => false

/-- Helper for `splitWs`: `acc` is the reversed prefix of the token being
read. -/
def splitWsAux : Line → Line → List Line
  | [], acc => if acc = [] then [] else [acc.reverse]
  | c :: r, acc =>
    if pyWs c then
      if acc = [] then splitWsAux r [] else acc.reverse :: splitWsAux r []
    else splitWsAux r (c :: acc)

/-- Python `str.split()` with no separator: split on whitespace runs,
dropping empty pieces. -/
def splitWs (l : Line) : List Line := splitWsAux l []

/-- The line classifier of `parse_metbk`: `float(line.split()[-1])` raises
no exception.  `false` covers both the empty split (IndexError) and a
non-float last token (ValueError). -/
def lastTokenFloats (l : Line) : Bool :=
  match (splitWs l).getLast? with
  | some t => isPyFloat t
  | none => false

/-! ### The `TIMESTAMP_PATTERN` of METBK

`\d{4}/\d{2}/\d{2}\s*\d{2}:\d{2}:\d{2}.\d+` — note the unescaped `.` is a
wildcard for any character other than `\n`.  Every quantifier in this
pattern is deterministic: `\s*` is followed by `\d{2}` and no whitespace
character is a digit, so only the maximal whitespace run can succeed, and
the final greedy `\d+` ends the pattern, so it takes the maximal digit
run. -/

/-- Consume exactly `n` digits. -/
def takeDigitsN : Nat → Line → Option Line
  | 0, l => some l
  | _ + 1, [] => none
  | n + 1, c :: r => if pyDigit c then takeDigitsN n r else none

/-- Consume exactly the given character. -/
def takeLit (ch : Char) : Line → Option Line
  | [] => none
  | c :: r => if c = ch then some r else none

/-- Consume one character that is not a newline (the `.` wildcard). -/
def takeNotNl : Line → Option Line
  | [] => none
  | c :: r => if c = '\n' then none else some r

/-- Match `TIMESTAMP_PATTERN` at the front of the line, returning the rest
after the match. -/
def matchTsRest (l : Line) : Option Line :=
  (takeDigitsN 4 l).bind fun r =>
  (takeLit '/' r).bind fun r =>
  (takeDigitsN 2 r).bind fun r =>
  (takeLit '/' r).bind fun r =>
  (takeDigitsN 2 r).bind fun r =>
  (takeDigitsN 2 (r.dropWhile pyWs)).bind fun r =>
  (takeLit ':' r).bind fun r =>
  (takeDigitsN 2 r).bind fun r =>
  (takeLit ':' r).bind fun r =>
  (takeDigitsN 2 r).bind fun r =>
  (takeNotNl r).bind fun r =>
  match r.takeWhile pyDigit with
  | [] => none
  | _ :: _ => some (r.dropWhile pyDigit)

/-- `re.findall(TIMESTAMP_PATTERN, line)[0]`: the text of the leftmost
match of the timestamp pattern, scanning positions left to right.
`parse_metbk` only ever uses the first element (and emptiness) of the
findall result, so the first match suffices. -/
def findTs1 : Line → Option Line
  | [] => none
  | c :: r =>
    match matchTsRest (c :: r) with
    | some rest => some ((c :: r).take ((c :: r).length - rest.length))
    | none => findTs1 r

/-! ### Sentinel rewriting: `re.sub(r'Na ', 'NaN', line)`

The pattern is a plain literal, so `re.sub` replaces the non-overlapping
occurrences scanned left to right, resuming right after each replacement. -/

/-- Whether `pat` is a prefix of `l` (plain literal comparison). -/
def leadsWith : Line → Line → Bool
  | [], _ => true
  | _ :: _, [] => false
  | p :: ps, c :: l => p = c && leadsWith ps l

/-- Whether `pat` occurs as a substring of `l` (Python `pat in l`). -/
def containsSub (pat : Line) : Line → Bool
  | [] => leadsWith pat []
  | c :: r => leadsWith pat (c :: r) || containsSub pat r

/-- The missing-value token `'Na '` of the METBK raw format. -/
def naTok : Line := ['N', 'a', ' ']

/-- The canonical sentinel `'NaN'`. -/
def nanTok : Line := ['N', 'a', 'N']

/-- `re.sub(r'Na ', 'NaN', line)`: replace each left-to-right
non-overlapping occurrence of `'Na '` by `'NaN'`, resuming after the
replaced text. -/
def replaceNa : Line → Line
  | [] => []
  | 'N' :: 'a' :: ' ' :: r => 'N' :: 'a' :: 'N' :: replaceNa r
  | c :: r => c :: replaceNa r

/-! ### Timestamp removal: `re.sub(timestamp[0], '', line)`

The matched timestamp text is used as a *pattern*.  Its characters are
digits, `/`, `:` and whitespace — all literal in a regex — except the one
character matched by the wildcard `.` of `TIMESTAMP_PATTERN`, which on
well-formed data is itself `'.'` and therefore acts as a wildcard for any
character other than `\n` when the text is re-used as a pattern.  The
embedding treats `'.'` as that wildcard and every other character as a
literal, and removes every non-overlapping match, scanning left to
right. -/

/-- Match the timestamp-derived pattern at the front of `l` (`'.'` is a
wildcard for any character other than a newline, all else literal);
returns the rest after the match. -/
def patMatchAt : Line → Line → Option Line
  | [], l => some l
  | _ :: _, [] => none
  | p :: ps, c :: l =>
    if (p = '.' ∧ c ≠ '\n') ∨ p = c then patMatchAt ps l else none

/-- Fuel-driven scan for `subAll`; the fuel is the line length, enough
because every step either consumes the (nonempty) pattern or one
character. -/
def subAllAux : Nat → Line → Line → Line
  | 0, _, l => l
  | _ + 1, _, [] => []
  | fuel + 1, pat, c :: l =>
    match patMatchAt pat (c :: l) with
    | some rest => subAllAux fuel pat rest
    | none => c :: subAllAux fuel pat l

/-- `re.sub(pat, '', line)` for the timestamp-derived pattern: delete every
non-overlapping left-to-right match. -/
def subAll (pat l : Line) : Line := subAllAux l.length pat l

/-! ### The `DATA_PATTERN` of METBK

`(-*\d+\.\d+|NaN)` then nine times `\s*(-*\d+\.\d+|NaN)`, then `.*?\n`:
ten captured groups and a discarded tail ("throw away batteries") that
must reach a literal newline (`.` does not match `\n`, and the pattern
ends in `\n`).

Quantifier analysis for this concrete pattern: `-*` is followed by `\d+`
and `-` is not a digit, so only the maximal minus run can succeed; the
`\d+` before `.` is followed by a literal `.` which is not a digit, so
only the maximal digit run can succeed; `\s*` is followed by a group
starting with `-`, a digit or `N`, none of which is whitespace, so only
the maximal whitespace run can succeed; `.*?` is lazy and cannot cross a
newline, so it stops at the first `\n`.  The single place where genuine
backtracking occurs is the greedy `\d+` *after* the decimal point: the
engine first takes the maximal digit run and gives digits back one at a
time if the remainder of the pattern fails (e.g. `"1.2345.6"` yields the
groups `1.234` and `5.6`).  `tryDigitSplit` implements exactly that
search, longest first. -/

/-- Try the splits of the digit run `ds` (followed by `rest`) for a final
greedy `\d+`: first all of `ds`, then one digit fewer, down to a single
digit, handing the digits taken and the remaining input to the
continuation `k`. -/
def tryDigitSplit {A : Type} : Nat → Line → Line → (Line → Line → Option A) → Option A
  | 0, _, _, _ => none
  | j + 1, ds, rest, k =>
    match k (ds.take (j + 1)) (ds.drop (j + 1) ++ rest) with
    | some x => some x
    | none => tryDigitSplit j ds rest k

/-- Match the alternative `-*\d+\.\d+` at the front of `l`, passing the
captured text and the rest to `k`, backtracking over the final digit
run. -/
def matchNum {A : Type} (l : Line) (k : Line → Line → Option A) : Option A :=
  let ms := l.takeWhile (fun c => c == '-')
  let r1 := l.dropWhile (fun c => c == '-')
  match r1.takeWhile pyDigit with
  | [] => none
  | _ :: _ =>
    match r1.dropWhile pyDigit with
    | '.' :: r3 =>
      match r3.takeWhile pyDigit with
      | [] => none
      | d :: ds =>
        tryDigitSplit (d :: ds).length (d :: ds) (r3.dropWhile pyDigit)
          (fun dtk rest => k (ms ++ r1.takeWhile pyDigit ++ '.' :: dtk) rest)
    | _ => none

/-- Match one group `(-*\d+\.\d+|NaN)` at the front of `l`: the numeric
alternative first, then the literal `NaN` (their first characters are in
fact disjoint). -/
def matchGroup {A : Type} (l : Line) (k : Line → Line → Option A) : Option A :=
  match matchNum l k with
  | some x => some x
  | none => if leadsWith nanTok l then k nanTok (l.drop 3) else none

/-- Match `n` repetitions of `\s*(-*\d+\.\d+|NaN)`, collecting the
captured groups. -/
def matchData9 {A : Type} : Nat → Line → (List Line → Line → Option A) → Option A
  | 0, l, k => k [] l
  | n + 1, l, k =>
    matchGroup (l.dropWhile pyWs) fun g r =>
      matchData9 n r fun gs r2 => k (g :: gs) r2

/-- The tail `.*?\n`: lazily skip non-newline characters up to the first
newline; fails when the input has no newline. -/
def matchTail : Line → Option Line
  | [] => none
  | c :: r => if c = '\n' then some r else matchTail r

/-- Match the whole `DATA_PATTERN` at the front of `l`, returning the ten
captured groups. -/
def matchDataAt (l : Line) : Option (List Line) :=
  matchGroup l fun g r =>
    matchData9 9 r fun gs r2 =>
      match matchTail r2 with
      | some _ => some (g :: gs)
      | none => none

/-- `re.findall(DATA_PATTERN, line)[0]`: the group tuple of the leftmost
match (`parse_metbk` only uses index 0 of the findall result, and its
emptiness). -/
def findData1 : Line → Option (List Line)
  | [] => none
  | c :: r =>
    match matchDataAt (c :: r) with
    | some gs => some gs
    | none => findData1 r

/-! ### `METBK.parse_metbk` -/

/-- The `except` branch of `parse_metbk` applied to the current value of
`line`: re-search for a timestamp; if one is found, fabricate the ten
sensor fields as `'NaN'` and prepend the timestamp, otherwise drop the
line (`line = None`). -/
def recoverMetbk (l : Line) : Option (List Line) :=
  match findTs1 l with
  | some t => some (t :: List.replicate 10 nanTok)
  | none => none

/-- One iteration of the `parse_metbk` loop on one element of `raw_data`
(`none` models a `None` entry, which is skipped).  The `try` block runs
`float(line.split()[-1])`, the sentinel rewrite, the timestamp search
(`timestamp[0]` raises `IndexError` when the search is empty), the
timestamp removal and the data-pattern search (`[0]` raises on no match);
every failure lands in the `except` branch, which re-searches the
*current* value of `line` for a timestamp. -/
def parseLineMetbk (line : Option Line) : Option (List Line) :=
  match line with
  | none => none
  | some l =>
    if lastTokenFloats l then
      match findTs1 (replaceNa l) with
      | none => recoverMetbk (replaceNa l)
      | some t =>
        match findData1 (subAll t (replaceNa l)) with
        | some gs => some (t :: gs)
        | none => recoverMetbk (subAll t (replaceNa l))
    else
      recoverMetbk l

/-- `METBK.parse_metbk`: the per-line records, in input order. -/
def parseMetbk (raw : List (Option Line)) : List (List Line) :=
  raw.filterMap parseLineMetbk

/-! ### `WAVSS.parse_wavss` -/

/-- The record-type marker `'$TSPWA'`. -/
def tspwaTok : Line := ['$', 'T', 'S', 'P', 'W', 'A']

/-- `re.sub(r'\*.*', '', line, flags=re.DOTALL)`: with DOTALL the greedy
`.*` runs to the end of the string, so everything from the first `'*'`
onward is removed. -/
def truncStar : Line → Line
  | [] => []
  | '*' :: _ => []
  | c :: r => c :: truncStar r

/-- `re.split(r' \$|,', line)`: scan left to right; a space followed by
`'$'` is a two-character delimiter, a comma a one-character delimiter
(their first characters are disjoint, so alternation order is
immaterial). -/
def wsplit : Line → List Line
  | [] => [[]]
  | ' ' :: '$' :: r => [] :: wsplit r
  | ',' :: r => [] :: wsplit r
  | c :: r =>
    match wsplit r with
    | p :: ps => (c :: p) :: ps
    | [] => [[c]]

/-- One iteration of the `parse_wavss` loop: lines without the `'$TSPWA'`
marker are skipped; the line is truncated at `'*'`, split, and kept only
when the split has exactly 22 fields. -/
def parseLineWavss (l : Line) : Option (List Line) :=
  if containsSub tspwaTok l then
    if (wsplit (truncStar l)).length = 22 then some (wsplit (truncStar l)) else none
  else none

/-- `WAVSS.parse_wavss`: the per-line records, in input order. -/
def parseWavss (raw : List Line) : List (List Line) :=
  raw.filterMap parseLineWavss

/-! ### The loaders

The loaders are embedded with explicit state passing: `Option Table` is
the stored `self.DATA` (`none` models both `VELPTA`'s initial `None` and
the attribute not existing yet on `METBK`/`WAVSS`), the file system is a
function from path to file content (`none` = the `open`/read raises), and
each call returns the new stored table, the exception raised if any, and
the trace of files actually opened, in order.

`pandas` is external to the repository: `pd.concat` of row-wise frames is
modelled as list append, `pd.DataFrame(rows, columns)` as the row list
itself, and `astype` as a per-cell typability check of each column's
declared dtype (`datetime64[ns]`, `float`, `int`, `str`; the `None`
dtypes of `LATITUDE`/`LONGITUDE` are `numpy.dtype(None)`, i.e.
`float64`). -/

/-- A result table: the ordered list of parsed records. -/
abbrev Table := List (List Line)

/-- The `files` argument of a loader, as the dynamically typed caller may
pass it: a list of paths, or a value of some other type. -/
inductive FilesArg where
  | ofList (files : List String)
  | notAList

/-- The file system: path to the `readlines()` content, `none` when
opening or reading the file raises. -/
abbrev FileSys := String → Option (List Line)

/-- What one loader call produces: the stored table afterwards, the
exception message if one was raised, and the files opened, in order. -/
structure LoadOut where
  data : Option Table
  err : Option String
  opened : List String
deriving DecidableEq, Repr

/-- The `TypeError` message all three loaders raise on a non-list
argument. -/
def typeErrMsg : String := "TypeError: Files must be a list of full file paths"

/-- The exception of a failed `open`/read, propagated unhandled. -/
def ioErrMsg : String := "OSError: unreadable file"

/-- The exception of a failed final `astype`. -/
def castErrMsg : String := "ValueError: could not cast column to its declared type"

/-- Column dtypes as `astype` receives them. -/
inductive PType where
  | dt
  | flt
  | intc
  | str
deriving DecidableEq

/-- Whether Python `int(token)` succeeds: optional surrounding whitespace
and sign, then a digit run with single underscores between digits. -/
def isPyInt (t : Line) : Bool :=
  let t1 := ((t.dropWhile pyWs).reverse.dropWhile pyWs).reverse
  let t2 := match t1 with
    | c :: r => if c = '+' || c = '-' then r else c :: r
    | [] => []
  match digRun t2 with
  | some [] => true
  | _ => false

/-- Whether a cell converts to `datetime64[ns]`: the dcl timestamp layout
the two log families write. -/
def tsCellOk (c : Line) : Bool :=
  match matchTsRest c with
  | some [] => true
  | _ => false

/-- Whether one cell converts to the given dtype. -/
def cellOk : PType → Line → Bool
  | .dt, c => tsCellOk c
  | .flt, c => isPyFloat c
  | .intc, c => isPyInt c
  | .str, _ => true

/-- `METBK.DATA_TYPES` in schema order: timestamp then ten floats. -/
def metbkTypes : List PType := .dt :: List.replicate 10 .flt

/-- `WAVSS.DATA_TYPE` in schema order. -/
def wavssTypes : List PType :=
  [.dt, .str, .intc, .intc, .intc, .str, .flt, .flt, .intc,
   .flt, .flt, .flt, .flt, .flt, .flt, .flt, .flt, .flt, .flt, .flt, .flt, .flt]

/-- Whether `astype` succeeds on the whole table for the given column
dtypes. -/
def castOk (tys : List PType) (t : Table) : Bool :=
  t.all fun row =>
    row.length = tys.length && (List.zip tys row).all fun p => cellOk p.1 p.2

/-- Python `path.endswith(".log")`. -/
def endsWithLog (f : String) : Bool :=
  leadsWith ['g', 'o', 'l', '.'] f.data.reverse

/-- What the per-file loop of a log-family loader produces. -/
structure BuildOut where
  table : Table
  err : Option String
  opened : List String
deriving DecidableEq, Repr

/-- The `for file in files` loop shared by `load_metbk`/`load_wavss`:
skip paths not ending in `.log`, open and read the rest, parse, and
concatenate the per-file records in order.  A read failure propagates,
aborting the loop. -/
def buildLog (parse : List Line → Table) (fsys : FileSys) : List String → BuildOut
  | [] => ⟨[], none, []⟩
  | f :: fs =>
    if endsWithLog f then
      match fsys f with
      | none => ⟨[], some ioErrMsg, []⟩
      | some lines =>
        let out := buildLog parse fsys fs
        ⟨parse lines ++ out.table, out.err, f :: out.opened⟩
    else buildLog parse fsys fs

/-- `METBK.load_metbk`: `TypeError` before any I/O on a non-list
argument; otherwise run the file loop and, if nothing raised, cast and
store the freshly built table (the previous `self.DATA` is replaced, and
is kept only when an exception prevents the final assignment). -/
def loadMetbk (fsys : FileSys) (st : Option Table) (arg : FilesArg) : LoadOut :=
  match arg with
  | .notAList => ⟨st, some typeErrMsg, []⟩
  | .ofList files =>
    match buildLog (fun ls => parseMetbk (ls.map some)) fsys files with
    | ⟨_, some e, op⟩ => ⟨st, some e, op⟩
    | ⟨t, none, op⟩ =>
      if castOk metbkTypes t then ⟨some t, none, op⟩
      else ⟨st, some castErrMsg, op⟩

/-- `WAVSS.load_wavss`: same shape as `load_metbk` with the wavss parser
and schema. -/
def loadWavss (fsys : FileSys) (st : Option Table) (arg : FilesArg) : LoadOut :=
  match arg with
  | .notAList => ⟨st, some typeErrMsg, []⟩
  | .ofList files =>
    match buildLog parseWavss fsys files with
    | ⟨_, some e, op⟩ => ⟨st, some e, op⟩
    | ⟨t, none, op⟩ =>
      if castOk wavssTypes t then ⟨some t, none, op⟩
      else ⟨st, some castErrMsg, op⟩

/-- The per-file loop of `load_velpta`: `self.DATA` is re-assigned to
`pd.concat([self.DATA, parse(file)])` for each file in order.
`parse_velpt` is the delimited-file collaborator (a `pandas` fixed-column
read, out of the engine's scope), so it enters as a parameter. -/
def velptaGo (pv : String → Table) : Table → List String → Table
  | cur, [] => cur
  | cur, f :: fs => velptaGo pv (cur ++ pv f) fs

/-- `VELPTA.load_velpta`: `TypeError` before any I/O on a non-list
argument; otherwise initialise `self.DATA` to the empty table when it is
still `None`, then concatenate each file's parsed records onto it. -/
def loadVelpta (pv : String → Table) (st : Option Table) (arg : FilesArg) : LoadOut :=
  match arg with
  | .notAList => ⟨st, some typeErrMsg, []⟩
  | .ofList files => ⟨some (velptaGo pv (st.getD []) files), none, files⟩

/-! ### Concrete inputs used by the claims -/

/-- Scenario A's meteorological line, exactly as the spec quotes it (it
carries no terminating newline). -/
def lineA : Line :=
  "2019/05/01 00:00:00.000 1013.2 85.3 15.1 350.2 0.0 14.8 35.1 420.5 2.1 -1.3 12.4".data

/-- Scenario A's line with the terminating newline `readlines()` delivers. -/
def lineANL : Line := lineA ++ ['\n']

/-- The record scenario A expects: timestamp plus the ten sensor fields,
battery value dropped. -/
def recordA : List Line :=
  ["2019/05/01 00:00:00.000", "1013.2", "85.3", "15.1", "350.2",
   "0.0", "14.8", "35.1", "420.5", "2.1", "-1.3"].map String.data

/-- Scenario B's noise line. -/
def garbageLine : Line := "garbage text with no markers".data

/-- A line whose last token is a float and which has a timestamp, but
fewer than ten data fields: the strict extraction fails after the
timestamp has been removed. -/
def lineTen : Line := "2019/05/01 00:00:00.000 1.0\n".data

/-- A well-formed wave-statistics line: 22 fields after truncation at the
checksum `*` and splitting. -/
def lineW : Line :=
  ("2019/05/01 00:00:00.123 $TSPWA,20190501,000012,12345,buoy1,40.1,-70.2," ++
   "123,1.1,5.2,2.2,1.5,6.1,1.8,6.5,5.0,7.1,8.2,1.9,185.2,30.1*5F\n").data

/-- The record `parse_wavss` emits for `lineW`. -/
def recordW : List Line := wsplit (truncStar lineW)

/-! ## Theorems -/

theorem leadsWith_append_self (p x : Line) : leadsWith p (p ++ x) = true := by
  induction p with
  | nil => rfl
  | cons a ps ih => simp [leadsWith, ih]

theorem replaceNa_cons_not_lead (c : Char) (r : Line)
    (h : leadsWith naTok (c :: r) = false) :
    replaceNa (c :: r) = c :: replaceNa r := by
  rw [replaceNa.eq_def]
  split
  · simp_all
  · rename_i r2 heq
    rcases List.cons.injEq .. ▸ heq with ⟨h1, h2⟩
    subst h1; subst h2
    simp [leadsWith, naTok] at h
  · rename_i c2 r2 hne heq
    rcases List.cons.injEq .. ▸ heq with ⟨h1, h2⟩
    subst h1; subst h2
    rfl

theorem replaceNa_fix (l : Line) (h : containsSub naTok l = false) :
    replaceNa l = l := by
  induction l with
  | nil => rfl
  | cons c r ih =>
    rw [containsSub, Bool.or_eq_false_iff] at h
    rw [replaceNa_cons_not_lead c r h.1, ih h.2]

theorem lead_na_append_false (c : Char) (a b : Line)
    (h : containsSub naTok (c :: a) = false) :
    leadsWith naTok ((c :: a) ++ naTok ++ b) = false := by
  rcases a with _ | ⟨c2, _ | ⟨c3, t⟩⟩
  · simp [leadsWith, naTok]
  · simp [leadsWith, naTok]
  · rw [containsSub, Bool.or_eq_false_iff] at h
    have h1 := h.1
    simp only [naTok, leadsWith] at h1 ⊢
    simpa using h1

/-- Claim C3 (counterexample): the sentinel rewrite is not idempotent: on
`"Na a "` one application yields `"NaNa "`, whose tail `"Na "` was created
across a replacement boundary, and a second application yields
`"NaNaN"`. -/
theorem metbk_sentinel_not_idempotent :
    replaceNa (replaceNa ("Na a ".data)) ≠ replaceNa ("Na a ".data) ∧
    replaceNa ("Na a ".data) = "NaNa ".data ∧
    replaceNa ("NaNa ".data) = "NaNaN".data := by
  refine ⟨by decide, by decide, by decide⟩

/-- Claim C3 (amended): the rewrite is total over one left-to-right pass —
a line free of the token is unchanged, and every occurrence of `'Na '` in
the input is replaced (if the text before an occurrence is
occurrence-free, the rewrite maps `a ++ "Na " ++ b` to
`a ++ "NaN" ++ replaceNa b`) — but it is not idempotent, because a
replacement can create a new occurrence spanning the boundary. -/
theorem metbk_sentinel_total (a b : Line) (h : containsSub naTok a = false) :
    replaceNa (a ++ naTok ++ b) = a ++ nanTok ++ replaceNa b ∧ replaceNa a = a := by
  refine ⟨?_, replaceNa_fix a h⟩
  induction a with
  | nil => rfl
  | cons c a ih =>
    rw [containsSub, Bool.or_eq_false_iff] at h
    have hl := lead_na_append_false c a b (by rw [containsSub, Bool.or_eq_false_iff]; exact h)
    calc replaceNa ((c :: a) ++ naTok ++ b)
        = c :: replaceNa (a ++ naTok ++ b) := replaceNa_cons_not_lead _ _ hl
      _ = c :: (a ++ nanTok ++ replaceNa b) := by rw [ih h.2]
      _ = (c :: a) ++ nanTok ++ replaceNa b := by simp

/-- Witness for C3's amended theorem at a concrete occurrence-free
prefix. -/
theorem metbk_sentinel_total_witness :
    replaceNa ("x ".data ++ naTok ++ "tail".data) =
      "x ".data ++ nanTok ++ replaceNa "tail".data ∧
    replaceNa ("x ".data) = "x ".data :=
  metbk_sentinel_total ("x ".data) ("tail".data) (by decide)

/-- Claim C1: a meteorological line whose last whitespace-delimited token
does not parse as a Python float but which contains a timestamp yields
exactly one record: the extracted timestamp followed by ten `'NaN'`
sentinels. -/
theorem metbk_recoverable_line_nan (l t : Line)
    (hf : lastTokenFloats l = false) (ht : findTs1 l = some t) :
    parseMetbk [some l] = [t :: List.replicate 10 nanTok] := by
  simp [parseMetbk, parseLineMetbk, hf, recoverMetbk, ht]

/-- Witness for C1 at a concrete line with a timestamp and the
unparseable trailing token `"bad"`. -/
theorem metbk_recoverable_line_nan_witness :
    parseMetbk [some ("2019/05/01 00:00:00.000 bad".data)] =
      [("2019/05/01 00:00:00.000".data) :: List.replicate 10 nanTok] :=
  metbk_recoverable_line_nan _ _ (by decide) (by decide)

/-- Claim C2: `parse_wavss` emits a record for a line exactly when the
line contains the `'$TSPWA'` marker and the post-truncation, post-split
token count is 22, in which case the record is that split; any other
count (and any line without the marker) yields no record. -/
theorem wavss_record_gate (l : Line) :
    parseWavss [l] =
      if containsSub tspwaTok l ∧ (wsplit (truncStar l)).length = 22
      then [wsplit (truncStar l)] else [] := by
  by_cases h1 : containsSub tspwaTok l
  · by_cases h2 : (wsplit (truncStar l)).length = 22 <;>
      simp [parseWavss, parseLineWavss, h1, h2]
  · simp [parseWavss, parseLineWavss, h1]

/-- Claim C5: all three loaders raise `TypeError` on a non-list argument
before any file is opened (empty open trace) and leave the stored table
unchanged. -/
theorem loaders_reject_nonlist_before_io (pv : String → Table) (fsys : FileSys)
    (st1 st2 st3 : Option Table) :
    loadVelpta pv st1 .notAList = ⟨st1, some typeErrMsg, []⟩ ∧
    loadMetbk fsys st2 .notAList = ⟨st2, some typeErrMsg, []⟩ ∧
    loadWavss fsys st3 .notAList = ⟨st3, some typeErrMsg, []⟩ :=
  ⟨rfl, rfl, rfl⟩

/-- Claim C6: noise lines (a `None` entry, or a line like scenario B's
`"garbage text with no markers"`) contribute no record and raise nothing,
and each parser emits at most one record per input line, so the output
count never exceeds the input count. -/
theorem noise_contributes_nothing (ml : List (Option Line)) (wl : List Line) :
    (parseMetbk ml).length ≤ ml.length ∧
    (parseWavss wl).length ≤ wl.length ∧
    parseMetbk [none] = [] ∧
    parseMetbk [some garbageLine] = [] ∧
    parseWavss [garbageLine] = [] :=
  ⟨List.length_filterMap_le parseLineMetbk ml,
   List.length_filterMap_le parseLineWavss wl,
   rfl, by decide, by decide⟩

theorem tryDigitSplit_some {A : Type} (j : Nat) (ds rest : Line)
    (k : Line → Line → Option A) (x : A)
    (h : tryDigitSplit j ds rest k = some x) : ∃ g r, k g r = some x := by
  induction j with
  | zero => simp [tryDigitSplit] at h
  | succ n ih =>
    rw [tryDigitSplit] at h
    revert h
    cases hk : k (ds.take (n + 1)) (ds.drop (n + 1) ++ rest) with
    | some y => intro h; exact ⟨_, _, hk.trans h⟩
    | none => intro h; exact ih h

theorem matchNum_some {A : Type} (l : Line) (k : Line → Line → Option A) (x : A)
    (h : matchNum l k = some x) : ∃ g r, k g r = some x := by
  rw [matchNum] at h
  split at h
  · exact absurd h (by simp)
  · split at h
    · split at h
      · exact absurd h (by simp)
      · rcases tryDigitSplit_some _ _ _ _ _ h with ⟨g, r, hk⟩
        exact ⟨_, _, hk⟩
    · exact absurd h (by simp)

theorem matchGroup_some {A : Type} (l : Line) (k : Line → Line → Option A) (x : A)
    (h : matchGroup l k = some x) : ∃ g r, k g r = some x := by
  rw [matchGroup] at h
  revert h
  cases hn : matchNum l k with
  | some y => intro h; exact matchNum_some l k x (hn.trans h)
  | none =>
    intro h
    by_cases hl : leadsWith nanTok l = true
    · simp only [hl, if_pos] at h
      exact ⟨_, _, h⟩
    · simp only [Bool.not_eq_true] at hl
      simp [hl] at h

theorem matchData9_some {A : Type} (n : Nat) :
    ∀ (l : Line) (k : List Line → Line → Option A) (x : A),
      matchData9 n l k = some x → ∃ gs r, gs.length = n ∧ k gs r = some x := by
  induction n with
  | zero => intro l k x h; exact ⟨[], l, rfl, h⟩
  | succ m ih =>
    intro l k x h
    rw [matchData9] at h
    rcases matchGroup_some _ _ _ h with ⟨g, r, hk⟩
    rcases ih r _ x hk with ⟨gs, r2, hlen, hk2⟩
    exact ⟨g :: gs, r2, by simp [hlen], hk2⟩

theorem matchDataAt_length (l : Line) (gs : List Line)
    (h : matchDataAt l = some gs) : gs.length = 10 := by
  rw [matchDataAt] at h
  rcases matchGroup_some _ _ _ h with ⟨g, r, hk⟩
  rcases matchData9_some 9 r _ _ hk with ⟨gs9, r2, hlen, hk2⟩
  revert hk2
  cases matchTail r2 with
  | some r3 => intro hk2; cases hk2; simp [hlen]
  | none => intro hk2; exact absurd hk2 (by simp)

theorem findData1_length (l : Line) (gs : List Line)
    (h : findData1 l = some gs) : gs.length = 10 := by
  induction l with
  | nil => simp [findData1] at h
  | cons c r ih =>
    rw [findData1] at h
    revert h
    cases hm : matchDataAt (c :: r) with
    | some gs2 => intro h; cases h; exact matchDataAt_length _ _ hm
    | none => intro h; exact ih h

theorem recoverMetbk_length (l : Line) (r : List Line)
    (h : recoverMetbk l = some r) : r.length = 11 := by
  rw [recoverMetbk] at h
  revert h
  cases findTs1 l with
  | some t => intro h; cases h; simp
  | none => intro h; exact absurd h (by simp)

theorem parseLineMetbk_length (o : Option Line) (r : List Line)
    (h : parseLineMetbk o = some r) : r.length = 11 := by
  cases o with
  | none => exact absurd h (by simp [parseLineMetbk])
  | some l =>
    rw [parseLineMetbk] at h
    split at h
    · revert h
      cases findTs1 (replaceNa l) with
      | none => intro h; exact recoverMetbk_length _ _ h
      | some t =>
        dsimp only
        cases hd : findData1 (subAll t (replaceNa l)) with
        | some gs =>
          intro h
          injection h with h2
          rw [← h2]
          simp [findData1_length _ _ hd]
        | none => intro h; exact recoverMetbk_length _ _ h
    · exact recoverMetbk_length _ _ h

theorem parseLineWavss_length (l : Line) (r : List Line)
    (h : parseLineWavss l = some r) : r.length = 22 := by
  rw [parseLineWavss] at h
  split at h
  · split at h
    · rename_i hlen
      injection h with h2
      rw [← h2]
      exact hlen
    · exact absurd h (by simp)
  · exact absurd h (by simp)

/-- Claim C7: every record `parse_metbk` emits has length 11 (timestamp
plus ten fields) and every record `parse_wavss` emits has length 22,
sentinel-filled records included. -/
theorem emitted_record_arity (ml : List (Option Line)) (wl : List Line)
    (rm rv : List Line)
    (hm : rm ∈ parseMetbk ml) (hw : rv ∈ parseWavss wl) :
    rm.length = 11 ∧ rv.length = 22 := by
  rw [parseMetbk, List.mem_filterMap] at hm
  rw [parseWavss, List.mem_filterMap] at hw
  rcases hm with ⟨o, _, ho⟩
  rcases hw with ⟨a, _, ha⟩
  exact ⟨parseLineMetbk_length o rm ho, parseLineWavss_length a rv ha⟩

/-- Witness for C7: the scenario A record (with its newline) and a
well-formed wave-statistics record. -/
theorem emitted_record_arity_witness :
    recordA.length = 11 ∧ recordW.length = 22 :=
  emitted_record_arity [some lineANL] [lineW] recordA recordW (by decide) (by decide)

/-- Claim C4 (counterexample): feeding the spec's scenario A line exactly
as quoted — without a terminating newline — yields no record at all,
because `DATA_PATTERN` requires a literal `\n`, the strict extraction
fails, and the recovery search runs on the line with the timestamp
already removed. -/
theorem scenario_a_without_newline_cex :
    parseMetbk [some lineA] = [] ∧ parseMetbk [some lineA] ≠ [recordA] := by
  refine ⟨by decide, by decide⟩

/-- Claim C4 (amended): feeding scenario A's line with the terminating
newline that `readlines()` supplies yields exactly one record, the
timestamp followed by the ten fields in schema order, the trailing
battery value dropped. -/
theorem scenario_a_with_newline :
    parseMetbk [some lineANL] = [recordA] := by decide

/-- Claim C10 (counterexample): a line whose last token parses as a float
and which contains a timestamp, but whose ten-field pattern fails to
match (here: a single data field), is dropped — not demoted to a
sentinel-filled record as the claim asserts. -/
theorem strict_failure_line_dropped_cex :
    parseMetbk [some lineTen] = [] ∧
    parseMetbk [some lineTen] ≠
      [("2019/05/01 00:00:00.000".data) :: List.replicate 10 nanTok] := by
  refine ⟨by decide, by decide⟩

/-- Claim C10 (amended): when the trailing-float check passes, a
timestamp is found, and the strict data-pattern extraction then fails,
the sentinel-filled record is emitted only if a timestamp is still
findable in the line with the first timestamp removed; otherwise the line
is dropped.  In particular a line that merely lacks its newline or
carries fewer than ten fields is dropped, since removing its only
timestamp leaves none to recover. -/
theorem strict_failure_recovery_condition (l t : Line)
    (hf : lastTokenFloats l = true)
    (ht : findTs1 (replaceNa l) = some t)
    (hd : findData1 (subAll t (replaceNa l)) = none) :
    parseMetbk [some l] =
      match findTs1 (subAll t (replaceNa l)) with
      | some t2 => [t2 :: List.replicate 10 nanTok]
      | none => [] := by
  cases h2 : findTs1 (subAll t (replaceNa l)) <;>
    simp [parseMetbk, parseLineMetbk, hf, ht, hd, recoverMetbk, h2]

/-- Witness for C10's amended theorem at the dropped concrete line. -/
theorem strict_failure_recovery_condition_witness :
    parseMetbk [some lineTen] =
      match findTs1 (subAll ("2019/05/01 00:00:00.000".data) (replaceNa lineTen)) with
      | some t2 => [t2 :: List.replicate 10 nanTok]
      | none => [] :=
  strict_failure_recovery_condition lineTen ("2019/05/01 00:00:00.000".data)
    (by decide) (by decide) (by decide)

theorem buildLog_all_skip (p : List Line → Table) (fsys : FileSys)
    (files : List String) (h : ∀ f ∈ files, endsWithLog f = false) :
    buildLog p fsys files = ⟨[], none, []⟩ := by
  induction files with
  | nil => rfl
  | cons f fs ih =>
    rw [buildLog, h f (List.mem_cons_self f fs)]
    simp only [Bool.false_eq_true, if_false]
    exact ih fun g hg => h g (List.mem_cons_of_mem f hg)

theorem buildLog_opened_log (p : List Line → Table) (fsys : FileSys)
    (files : List String) (f : String)
    (h : f ∈ (buildLog p fsys files).opened) : endsWithLog f = true := by
  induction files with
  | nil => simp [buildLog] at h
  | cons g fs ih =>
    rw [buildLog] at h
    by_cases hg : endsWithLog g = true
    · simp only [hg, if_true] at h
      revert h
      cases fsys g with
      | none => intro h; simp at h
      | some lines =>
        intro h
        rcases List.mem_cons.mp h with h1 | h2
        · rw [h1]; exact hg
        · exact ih h2
    · simp only [Bool.not_eq_true] at hg
      rw [hg] at h
      simp only [Bool.false_eq_true, if_false] at h
      exact ih h

theorem loadMetbk_opened (fsys : FileSys) (st : Option Table) (files : List String) :
    (loadMetbk fsys st (.ofList files)).opened =
      (buildLog (fun ls => parseMetbk (ls.map some)) fsys files).opened := by
  rw [loadMetbk]
  rcases hb : buildLog (fun ls => parseMetbk (ls.map some)) fsys files with ⟨t, e, op⟩
  cases e with
  | some e2 => rfl
  | none =>
    by_cases hc : castOk metbkTypes t = true <;> simp [hc]

theorem loadWavss_opened (fsys : FileSys) (st : Option Table) (files : List String) :
    (loadWavss fsys st (.ofList files)).opened =
      (buildLog parseWavss fsys files).opened := by
  rw [loadWavss]
  rcases hb : buildLog parseWavss fsys files with ⟨t, e, op⟩
  cases e with
  | some e2 => rfl
  | none =>
    by_cases hc : castOk wavssTypes t = true <;> simp [hc]

/-- Claim C8: paths not ending in `.log` are silently skipped by the two
log-family loaders: every file the loaders ever open ends in `.log`, and
a call whose list holds only non-matching paths completes with no error,
an empty (zero-row) stored table and nothing opened. -/
theorem nonlog_files_skipped (fsys fsys2 : FileSys)
    (stm stw stm2 stw2 : Option Table)
    (files files2 : List String) (f : String)
    (h : ∀ g ∈ files, endsWithLog g = false)
    (hf : f ∈ (loadMetbk fsys2 stm2 (.ofList files2)).opened ∨
          f ∈ (loadWavss fsys2 stw2 (.ofList files2)).opened) :
    loadMetbk fsys stm (.ofList files) = ⟨some [], none, []⟩ ∧
    loadWavss fsys stw (.ofList files) = ⟨some [], none, []⟩ ∧
    endsWithLog f = true := by
  refine ⟨?_, ?_, ?_⟩
  · rw [loadMetbk, buildLog_all_skip _ _ _ h]; rfl
  · rw [loadWavss, buildLog_all_skip _ _ _ h]; rfl
  · rcases hf with h1 | h2
    · exact buildLog_opened_log _ _ _ _ (loadMetbk_opened fsys2 stm2 files2 ▸ h1)
    · exact buildLog_opened_log _ _ _ _ (loadWavss_opened fsys2 stw2 files2 ▸ h2)

/-- Witness for C8: a `.txt` list is skipped whole; an opened file ends in
`.log`. -/
theorem nonlog_files_skipped_witness :
    loadMetbk (fun _ => some []) (some []) (.ofList ["notes.txt", "b.dat"]) =
      ⟨some [], none, []⟩ ∧
    loadWavss (fun _ => some []) none (.ofList ["notes.txt", "b.dat"]) =
      ⟨some [], none, []⟩ ∧
    endsWithLog "a.log" = true :=
  nonlog_files_skipped (fun _ => some []) (fun _ => some []) (some []) none (some []) none
    ["notes.txt", "b.dat"] ["a.log"] "a.log" (by decide) (Or.inl (by decide))

theorem velptaGo_eq (pv : String → Table) (cur : Table) (files : List String) :
    velptaGo pv cur files = cur ++ (files.map pv).flatten := by
  induction files generalizing cur with
  | nil => simp [velptaGo]
  | cons f fs ih => simp [velptaGo, ih]

/-- Claim C9: `load_velpta` extends across calls — the new stored table is
the old one (empty when still unset) with the current call's parsed
records appended — whereas `load_metbk`/`load_wavss` rebuild per call: on
a successful call the stored table is exactly the table built from the
current `files` argument, and the whole outcome is independent of the
previously stored table. -/
theorem load_replace_vs_extend (pv : String → Table) (fsys : FileSys)
    (stv stm stm2 stw stw2 : Option Table) (files : List String)
    (hm : (loadMetbk fsys stm (.ofList files)).err = none)
    (hw : (loadWavss fsys stw (.ofList files)).err = none) :
    (loadVelpta pv stv (.ofList files)).data
        = some (stv.getD [] ++ (files.map pv).flatten) ∧
    (loadMetbk fsys stm (.ofList files)).data
        = some (buildLog (fun ls => parseMetbk (ls.map some)) fsys files).table ∧
    loadMetbk fsys stm (.ofList files) = loadMetbk fsys stm2 (.ofList files) ∧
    (loadWavss fsys stw (.ofList files)).data
        = some (buildLog parseWavss fsys files).table ∧
    loadWavss fsys stw (.ofList files) = loadWavss fsys stw2 (.ofList files) := by
  refine ⟨congrArg some (velptaGo_eq pv (stv.getD []) files), ?_, ?_, ?_, ?_⟩
  · rw [loadMetbk] at hm ⊢
    rcases hb : buildLog (fun ls => parseMetbk (ls.map some)) fsys files with ⟨t, e, op⟩
    rw [hb] at hm
    cases e with
    | some e2 => simp at hm
    | none =>
      by_cases hc : castOk metbkTypes t = true
      · simp [hc]
      · simp [hc] at hm
  · simp only [loadMetbk] at hm ⊢
    rcases hb : buildLog (fun ls => parseMetbk (ls.map some)) fsys files with ⟨t, e, op⟩
    rw [hb] at hm
    cases e with
    | some e2 => simp at hm
    | none =>
      by_cases hc : castOk metbkTypes t = true
      · simp [hc]
      · simp [hc] at hm
  · rw [loadWavss] at hw ⊢
    rcases hb : buildLog parseWavss fsys files with ⟨t, e, op⟩
    rw [hb] at hw
    cases e with
    | some e2 => simp at hw
    | none =>
      by_cases hc : castOk wavssTypes t = true
      · simp [hc]
      · simp [hc] at hw
  · simp only [loadWavss] at hw ⊢
    rcases hb : buildLog parseWavss fsys files with ⟨t, e, op⟩
    rw [hb] at hw
    cases e with
    | some e2 => simp at hw
    | none =>
      by_cases hc : castOk wavssTypes t = true
      · simp [hc]
      · simp [hc] at hw

/-- Witness for C9 on a successful (empty-file-list) call. -/
theorem load_replace_vs_extend_witness :
    (loadVelpta (fun _ => [recordA]) (some [recordW]) (.ofList [])).data
        = some [recordW] ∧
    (loadMetbk (fun _ => none) (some [recordW]) (.ofList [])).data = some [] ∧
    loadMetbk (fun _ => none) (some [recordW]) (.ofList [])
        = loadMetbk (fun _ => none) none (.ofList []) ∧
    (loadWavss (fun _ => none) (some [recordA]) (.ofList [])).data = some [] ∧
    loadWavss (fun _ => none) (some [recordA]) (.ofList [])
        = loadWavss (fun _ => none) none (.ofList []) :=
  load_replace_vs_extend (fun _ => [recordA]) (fun _ => none)
    (some [recordW]) (some [recordW]) none (some [recordA]) none []
    (by decide) (by decide)

end AST3
